import Mathlib

/-!
Shallow embedding of the retry/backoff helpers and the session-cache
fixtures of the playwright-showcase-typescript repository.

Asynchronous operations are modelled as traces: an operation is a function
`fn : Nat → Except ε α` giving the outcome of its `j`-th invocation
(0-based).  The executors thread the invocation index explicitly; the
`RetryTrace` result records the final outcome, the number of invocations
performed, and the list of delays waited between attempts (in order).
-/

instance {ε α : Type} [DecidableEq ε] [DecidableEq α] :
    DecidableEq (Except ε α) := fun x y =>
  match x, y with
  | Except.ok a, Except.ok b =>
      if h : a = b then isTrue (by rw [h])
      else isFalse (by intro hh; cases hh; exact h rfl)
  | Except.ok _, Except.error _ => isFalse (by intro hh; cases hh)
  | Except.error _, Except.ok _ => isFalse (by intro hh; cases hh)
  | Except.error a, Except.error b =>
      if h : a = b then isTrue (by rw [h])
      else isFalse (by intro hh; cases hh; exact h rfl)

/-- Observable behaviour of one run of a retry executor. -/
structure RetryTrace (ε α : Type) where
  result : Except ε α
  calls : Nat
  delays : List Nat
deriving DecidableEq

namespace TestHelpers

/-- `TestHelpers.retry` from the OrangeHRM helpers file:
`try { return await fn() } catch (error) { if (retries <= 0) throw error;
await wait(delay); return retry(fn, retries - 1, delay * backoff, backoff) }`.
`retries` is an arbitrary (possibly negative) integer, as in the source. -/
def retry (fn : Nat → Except ε α) (retries : Int) (delay backoff i : Nat) :
    RetryTrace ε α :=
  match fn i with
  | Except.ok v => ⟨Except.ok v, 1, []⟩
  | Except.error e =>
      if h : retries ≤ 0 then ⟨Except.error e, 1, []⟩
      else
        let rest := retry fn (retries - 1) (delay * backoff) backoff (i + 1)
        ⟨rest.result, rest.calls + 1, delay :: rest.delays⟩
termination_by retries.toNat
decreasing_by simp_wf; omega

/-- `TestHelpers.retryWithErrorHandling` loop body, entered at iteration
`attempt` with captured `lastError = last`.  The source loop is
`for (attempt = 1; attempt <= retries + 1; attempt++) { try { return await fn() }
catch (error) { lastError = error; if (attempt <= retries) await wait(delay) } }
throw lastError;` (no error handler supplied). -/
def retryWEHLoop (fn : Nat → Except ε α) (retries : Int) (delay : Nat)
    (attempt : Nat) (last : Option ε) : RetryTrace (Option ε) α :=
  if h : (attempt : Int) ≤ retries + 1 then
    match fn (attempt - 1) with
    | Except.ok v => ⟨Except.ok v, 1, []⟩
    | Except.error e =>
        if h2 : (attempt : Int) ≤ retries then
          let rest := retryWEHLoop fn retries delay (attempt + 1) (some e)
          ⟨rest.result, rest.calls + 1, delay :: rest.delays⟩
        else ⟨Except.error (some e), 1, []⟩
  else ⟨Except.error last, 0, []⟩
termination_by (retries + 1 - attempt).toNat
decreasing_by simp_wf; omega

/-- `TestHelpers.retryWithErrorHandling` with no error handler: loop from
`attempt = 1` with `lastError` initially `undefined` (modelled `none`). -/
def retryWithErrorHandling (fn : Nat → Except ε α) (retries : Int)
    (delay : Nat) : RetryTrace (Option ε) α :=
  retryWEHLoop fn retries delay 1 none

end TestHelpers

namespace Utils

/-- `TestHelpers.retry` from `src/utils/helper.ts`: identical control flow
but a constant delay (the recursive call passes `delay` unchanged). -/
def retry (fn : Nat → Except ε α) (retries : Int) (delay i : Nat) :
    RetryTrace ε α :=
  match fn i with
  | Except.ok v => ⟨Except.ok v, 1, []⟩
  | Except.error e =>
      if h : retries ≤ 0 then ⟨Except.error e, 1, []⟩
      else
        let rest := retry fn (retries - 1) delay (i + 1)
        ⟨rest.result, rest.calls + 1, delay :: rest.delays⟩
termination_by retries.toNat
decreasing_by simp_wf; omega

end Utils

/-- Re-tag the error side of a trace with `some`, for comparing an executor
whose thrown value is typed `ε` with one whose `lastError` starts out
`undefined` (typed `Option ε`). -/
def RetryTrace.someErr (t : RetryTrace ε α) : RetryTrace (Option ε) α :=
  ⟨t.result.mapError some, t.calls, t.delays⟩

/-!
Session-state cache: the `authenticatedPage` / `authenticatedContext`
fixtures and `createAuthState` from global setup.

The browser and filesystem are modelled by an oracle `World σ`: the content
of the auth-state file (`none` when absent), whether the stored-state probe
finds the dashboard marker within its 5s timeout, whether an interactive
login reaches the marker, and the storage-state snapshot `fresh` a freshly
authenticated context serializes to.  Each fixture body is translated
branch-by-branch from the source into a pure function producing the
returned context, the final file content, and the list of browser actions
performed, in order.
-/

/-- The fields of `Environment.getConfig()` the fixtures use. -/
structure EnvironmentConfig where
  baseUrl : String
  username : String
  password : String

/-- The `dev` configuration defaults from `src/config/environment.ts`. -/
def devConfig : EnvironmentConfig :=
  { baseUrl := "https://opensource-demo.orangehrmlive.com"
    username := "Admin"
    password := "admin123" }

/-- One browser-automation or filesystem call made by a fixture.  `σ` is the
opaque serialized session-state type. -/
inductive BrowserAction (σ : Type) where
  | newContext (storageState : Option σ)
  | newPage
  | goto (url : String)
  | fill (selector : String) (value : String)
  | click (selector : String)
  | waitForSelector (selector : String) (timeoutMs : Option Nat) (ok : Bool)
  | closePage
  | saveStorageState (path : String) (state : σ)
deriving DecidableEq

/-- Deterministic environment of one fixture call. -/
structure World (σ : Type) where
  stored : Option σ
  probeOk : Bool
  loginOk : Bool
  fresh : σ

def authStatePath : String := "auth-state/admin-auth.json"

def usernameSelector : String := "input[name=\"username\"]"

def passwordSelector : String := "input[name=\"password\"]"

def submitSelector : String := "button[type=\"submit\"]"

def dashboardMarker : String := ".oxd-topbar-header-breadcrumb h6"

def dashboardPath : String := "/web/index.php/dashboard/index"

/-- The interactive-login step sequence shared verbatim by all four call
sites: goto base URL, fill both credential fields, click submit, wait for
the dashboard marker (with the call site's timeout). -/
def loginSteps (σ : Type) (env : EnvironmentConfig) (timeoutMs : Option Nat)
    (ok : Bool) : List (BrowserAction σ) :=
  [BrowserAction.goto env.baseUrl,
   BrowserAction.fill usernameSelector env.username,
   BrowserAction.fill passwordSelector env.password,
   BrowserAction.click submitSelector,
   BrowserAction.waitForSelector dashboardMarker timeoutMs ok]

/-- Either of the two failure modes of an interactive login (credentials
rejected, marker never appears) surfaces as the `waitForSelector` timeout
rejection; the fixtures neither catch nor transform it. -/
inductive FixtureError where
  | timeoutError
deriving DecidableEq

/-- Result of one fixture call: the outcome handed to `use` (carrying the
`storageState` option the returned context was created from: `some s` when
reconstructed from the stored state, `none` for a fresh context), the final
content of the auth-state file, and the actions performed. -/
structure FixtureRun (σ : Type) where
  outcome : Except FixtureError (Option σ)
  file : Option σ
  log : List (BrowserAction σ)
deriving DecidableEq

/-- The `authenticatedPage` fixture body, translated branch-by-branch:
if the auth-state file exists, reconstruct a context from it and probe the
dashboard (5s timeout); on probe failure log in interactively — without
saving the new state.  If the file is absent, open a fresh context and log
in interactively — also without saving. -/
def authenticatedPage (env : EnvironmentConfig) (w : World σ) : FixtureRun σ :=
  match w.stored with
  | some s =>
      let probeLog : List (BrowserAction σ) :=
        [BrowserAction.newContext (some s), BrowserAction.newPage,
         BrowserAction.goto (env.baseUrl ++ dashboardPath),
         BrowserAction.waitForSelector dashboardMarker (some 5000) w.probeOk]
      if w.probeOk then
        { outcome := Except.ok (some s), file := some s, log := probeLog }
      else if w.loginOk then
        { outcome := Except.ok (some s), file := some s,
          log := probeLog ++ loginSteps σ env none true }
      else
        { outcome := Except.error FixtureError.timeoutError, file := some s,
          log := probeLog ++ loginSteps σ env none false }
  | none =>
      let openLog : List (BrowserAction σ) :=
        [BrowserAction.newContext none, BrowserAction.newPage]
      if w.loginOk then
        { outcome := Except.ok none, file := none,
          log := openLog ++ loginSteps σ env none true }
      else
        { outcome := Except.error FixtureError.timeoutError, file := none,
          log := openLog ++ loginSteps σ env none false }

/-- The `authenticatedContext` fixture body: same probe, but after a
fallback or fresh interactive login it calls
`context.storageState({ path })`, writing the fresh snapshot to the
auth-state file. -/
def authenticatedContext (env : EnvironmentConfig) (w : World σ) :
    FixtureRun σ :=
  match w.stored with
  | some s =>
      let probeLog : List (BrowserAction σ) :=
        [BrowserAction.newContext (some s), BrowserAction.newPage,
         BrowserAction.goto (env.baseUrl ++ dashboardPath),
         BrowserAction.waitForSelector dashboardMarker (some 5000) w.probeOk]
      if w.probeOk then
        { outcome := Except.ok (some s), file := some s,
          log := probeLog ++ [BrowserAction.closePage] }
      else if w.loginOk then
        { outcome := Except.ok (some s), file := some w.fresh,
          log := probeLog ++ loginSteps σ env none true ++
            [BrowserAction.saveStorageState authStatePath w.fresh,
             BrowserAction.closePage] }
      else
        { outcome := Except.error FixtureError.timeoutError, file := some s,
          log := probeLog ++ loginSteps σ env none false }
  | none =>
      let openLog : List (BrowserAction σ) :=
        [BrowserAction.newContext none, BrowserAction.newPage]
      if w.loginOk then
        { outcome := Except.ok none, file := some w.fresh,
          log := openLog ++ loginSteps σ env none true ++
            [BrowserAction.saveStorageState authStatePath w.fresh,
             BrowserAction.closePage] }
      else
        { outcome := Except.error FixtureError.timeoutError, file := w.stored,
          log := openLog ++ loginSteps σ env none false }

/-- `createAuthState` from global setup: always a fresh context and an
interactive login (10s marker timeout); the state is saved only after the
marker appears, and a failure propagates after the `finally` browser
close. -/
def createAuthState (env : EnvironmentConfig) (w : World σ) : FixtureRun σ :=
  let openLog : List (BrowserAction σ) :=
    [BrowserAction.newContext none, BrowserAction.newPage]
  if w.loginOk then
    { outcome := Except.ok none, file := some w.fresh,
      log := openLog ++ loginSteps σ env (some 10000) true ++
        [BrowserAction.saveStorageState authStatePath w.fresh] }
  else
    { outcome := Except.error FixtureError.timeoutError, file := w.stored,
      log := openLog ++ loginSteps σ env (some 10000) false }

/-- Count of fills of a given field in an action log. -/
def countFill (sel : String) (log : List (BrowserAction σ)) : Nat :=
  log.countP (fun a => match a with
    | BrowserAction.fill s _ => s == sel
    | _ => false)

/-- Count of clicks of a given element in an action log. -/
def countClick (sel : String) (log : List (BrowserAction σ)) : Nat :=
  log.countP (fun a => match a with
    | BrowserAction.click s => s == sel
    | _ => false)

/-- Count of storage-state writes in an action log. -/
def countSave (log : List (BrowserAction σ)) : Nat :=
  log.countP (fun a => match a with
    | BrowserAction.saveStorageState _ _ => true
    | _ => false)

/-- A run performs exactly one interactive login: one fill of each
credential field and one submit click. -/
def oneLogin (log : List (BrowserAction σ)) : Prop :=
  countFill usernameSelector log = 1 ∧ countFill passwordSelector log = 1 ∧
    countClick submitSelector log = 1

/-- A run performs zero interactive login steps. -/
def noLogin (log : List (BrowserAction σ)) : Prop :=
  countFill usernameSelector log = 0 ∧ countFill passwordSelector log = 0 ∧
    countClick submitSelector log = 0

instance (log : List (BrowserAction σ)) : Decidable (oneLogin log) := by
  unfold oneLogin; infer_instance

instance (log : List (BrowserAction σ)) : Decidable (noLogin log) := by
  unfold noLogin; infer_instance

-- Theorems ----------------------------------------------------------------

-- Unfolding lemmas ---------------------------------------------------------

namespace TestHelpers

theorem retry_ok {fn : Nat → Except ε α} {i : Nat} {v : α}
    (h : fn i = Except.ok v) (retries : Int) (delay backoff : Nat) :
    retry fn retries delay backoff i = ⟨Except.ok v, 1, []⟩ := by
  unfold retry; rw [h]

theorem retry_err_stop {fn : Nat → Except ε α} {i : Nat} {e : ε}
    (h : fn i = Except.error e) {retries : Int} (hr : retries ≤ 0)
    (delay backoff : Nat) :
    retry fn retries delay backoff i = ⟨Except.error e, 1, []⟩ := by
  unfold retry; rw [h]; simp [hr]

theorem retry_err_step {fn : Nat → Except ε α} {i : Nat} {e : ε}
    (h : fn i = Except.error e) {retries : Int} (hr : 0 < retries)
    (delay backoff : Nat) :
    retry fn retries delay backoff i =
      ⟨(retry fn (retries - 1) (delay * backoff) backoff (i + 1)).result,
       (retry fn (retries - 1) (delay * backoff) backoff (i + 1)).calls + 1,
       delay :: (retry fn (retries - 1) (delay * backoff) backoff (i + 1)).delays⟩ := by
  rw [retry]; rw [h]; simp [show ¬ retries ≤ 0 by omega]

end TestHelpers

namespace Utils

theorem retry_ok_const {fn : Nat → Except ε α} {i : Nat} {v : α}
    (h : fn i = Except.ok v) (retries : Int) (delay : Nat) :
    retry fn retries delay i = ⟨Except.ok v, 1, []⟩ := by
  unfold retry; rw [h]

theorem retry_err_stop_const {fn : Nat → Except ε α} {i : Nat} {e : ε}
    (h : fn i = Except.error e) {retries : Int} (hr : retries ≤ 0)
    (delay : Nat) :
    retry fn retries delay i = ⟨Except.error e, 1, []⟩ := by
  unfold retry; rw [h]; simp [hr]

theorem retry_err_step_const {fn : Nat → Except ε α} {i : Nat} {e : ε}
    (h : fn i = Except.error e) {retries : Int} (hr : 0 < retries)
    (delay : Nat) :
    retry fn retries delay i =
      ⟨(retry fn (retries - 1) delay (i + 1)).result,
       (retry fn (retries - 1) delay (i + 1)).calls + 1,
       delay :: (retry fn (retries - 1) delay (i + 1)).delays⟩ := by
  rw [retry]; rw [h]; simp [show ¬ retries ≤ 0 by omega]

end Utils

namespace TestHelpers

theorem wehLoop_out {fn : Nat → Except ε α} {retries : Int} {attempt : Nat}
    (h : ¬ (attempt : Int) ≤ retries + 1) (delay : Nat) (last : Option ε) :
    retryWEHLoop fn retries delay attempt last = ⟨Except.error last, 0, []⟩ := by
  rw [retryWEHLoop]; simp [h]

theorem wehLoop_ok {fn : Nat → Except ε α} {retries : Int} {attempt : Nat}
    {v : α} (h : (attempt : Int) ≤ retries + 1)
    (hf : fn (attempt - 1) = Except.ok v) (delay : Nat) (last : Option ε) :
    retryWEHLoop fn retries delay attempt last = ⟨Except.ok v, 1, []⟩ := by
  rw [retryWEHLoop]; simp [h, hf]

theorem wehLoop_last {fn : Nat → Except ε α} {retries : Int} {attempt : Nat}
    {e : ε} (h : (attempt : Int) ≤ retries + 1)
    (h2 : ¬ (attempt : Int) ≤ retries)
    (hf : fn (attempt - 1) = Except.error e) (delay : Nat) (last : Option ε) :
    retryWEHLoop fn retries delay attempt last =
      ⟨Except.error (some e), 1, []⟩ := by
  rw [retryWEHLoop]; simp [h, h2, hf]

theorem wehLoop_step {fn : Nat → Except ε α} {retries : Int} {attempt : Nat}
    {e : ε} (h2 : (attempt : Int) ≤ retries)
    (hf : fn (attempt - 1) = Except.error e) (delay : Nat) (last : Option ε) :
    retryWEHLoop fn retries delay attempt last =
      ⟨(retryWEHLoop fn retries delay (attempt + 1) (some e)).result,
       (retryWEHLoop fn retries delay (attempt + 1) (some e)).calls + 1,
       delay :: (retryWEHLoop fn retries delay (attempt + 1) (some e)).delays⟩ := by
  rw [retryWEHLoop]; simp [show (attempt : Int) ≤ retries + 1 by omega, h2, hf]

/-- If no retries remain (`retries ≤ 0`), the executor performs exactly one
invocation and returns its outcome as-is, with no delay. -/
theorem retry_no_retries (fn : Nat → Except ε α) {retries : Int}
    (hr : retries ≤ 0) (delay backoff i : Nat) :
    retry fn retries delay backoff i = ⟨fn i, 1, []⟩ := by
  cases h : fn i with
  | ok v => rw [retry_ok h]
  | error e => rw [retry_err_stop h hr]

/-- Master lemma, failing run: if invocations `i, i+1, …, i+r` all fail,
`retry` with `retries = r` performs exactly `r + 1` invocations, its result is
the outcome of the final invocation, and the delays waited form the geometric
sequence `delay * backoff ^ j`. -/
theorem retry_fail_spec (r : Nat) (fn : Nat → Except ε α) (delay backoff i : Nat)
    (hfail : ∀ j, j ≤ r → (fn (i + j)).isOk = false) :
    retry fn (r : Int) delay backoff i =
      ⟨fn (i + r), r + 1,
       (List.range r).map (fun j => delay * backoff ^ j)⟩ := by
  induction r generalizing delay i with
  | zero =>
      have h0 := hfail 0 (Nat.le_refl 0)
      simp only [Nat.add_zero] at h0
      cases h : fn i with
      | ok v => rw [h] at h0; simp [Except.isOk, Except.toBool] at h0
      | error e => rw [retry_err_stop h (by omega)]; simp [h]
  | succ r ih =>
      have h0 := hfail 0 (Nat.zero_le _)
      simp only [Nat.add_zero] at h0
      cases h : fn i with
      | ok v => rw [h] at h0; simp [Except.isOk, Except.toBool] at h0
      | error e =>
          have hcast : ((r + 1 : Nat) : Int) - 1 = (r : Int) := by push_cast; ring
          rw [retry_err_step h (by omega), hcast]
          have hrest := ih (delay * backoff) (i + 1)
            (fun j hj => by
              have := hfail (j + 1) (by omega)
              simpa [show i + (j + 1) = i + 1 + j by omega] using this)
          rw [hrest]
          simp only [RetryTrace.mk.injEq]
          refine ⟨by rw [show i + 1 + r = i + (r + 1) by omega], trivial, ?_⟩
          simp only [List.range_succ_eq_map, List.map_cons, List.map_map,
            pow_zero, mul_one, List.cons.injEq, true_and]
          apply List.map_congr_left
          intro j _
          simp only [Function.comp_apply, pow_succ]
          ring

/-- Master lemma, eventually-successful run: if invocations `i, …, i+k-1`
fail and invocation `i+k` succeeds, with `k ≤ retries`, then `retry`
performs exactly `k + 1` invocations, returns the outcome of invocation
`i + k`, and waits the geometric delays for the `k` failures. -/
theorem retry_succ_spec (k : Nat) (fn : Nat → Except ε α) (r : Int)
    (delay backoff i : Nat) (hk : (k : Int) ≤ r)
    (hfail : ∀ j, j < k → (fn (i + j)).isOk = false)
    (hok : (fn (i + k)).isOk = true) :
    retry fn r delay backoff i =
      ⟨fn (i + k), k + 1,
       (List.range k).map (fun j => delay * backoff ^ j)⟩ := by
  induction k generalizing r delay i with
  | zero =>
      simp only [Nat.add_zero] at hok
      cases h : fn i with
      | error e => rw [h] at hok; simp [Except.isOk, Except.toBool] at hok
      | ok v => rw [retry_ok h]; simp [h]
  | succ k ih =>
      have h0 := hfail 0 (Nat.succ_pos k)
      simp only [Nat.add_zero] at h0
      cases h : fn i with
      | ok v => rw [h] at h0; simp [Except.isOk, Except.toBool] at h0
      | error e =>
          rw [retry_err_step h (by omega)]
          have hrest := ih (r - 1) (delay * backoff) (i + 1)
            (by omega)
            (fun j hj => by
              have := hfail (j + 1) (by omega)
              simpa [show i + (j + 1) = i + 1 + j by omega] using this)
            (by simpa [show i + 1 + k = i + (k + 1) by omega] using hok)
          rw [hrest]
          simp only [RetryTrace.mk.injEq]
          refine ⟨by rw [show i + 1 + k = i + (k + 1) by omega], trivial, ?_⟩
          simp only [List.range_succ_eq_map, List.map_cons, List.map_map,
            pow_zero, mul_one, List.cons.injEq, true_and]
          apply List.map_congr_left
          intro j _
          simp only [Function.comp_apply, pow_succ]
          ring

end TestHelpers

namespace TestHelpers

/-- The executor's control flow never inspects error values: two operations
whose invocations succeed and fail at exactly the same positions produce runs
with the same number of invocations and the same delays, whatever the error
values are. -/
theorem retry_shape_eq (fn₁ fn₂ : Nat → Except ε α)
    (hsh : ∀ j, (fn₁ j).isOk = (fn₂ j).isOk) (r : Int) (delay backoff i : Nat) :
    (retry fn₁ r delay backoff i).calls = (retry fn₂ r delay backoff i).calls ∧
    (retry fn₁ r delay backoff i).delays = (retry fn₂ r delay backoff i).delays := by
  have key : ∀ (t : Nat) (r : Int), r.toNat ≤ t → ∀ delay backoff i,
      (retry fn₁ r delay backoff i).calls = (retry fn₂ r delay backoff i).calls ∧
      (retry fn₁ r delay backoff i).delays = (retry fn₂ r delay backoff i).delays := by
    intro t
    induction t with
    | zero =>
        intro r hr delay backoff i
        rw [retry_no_retries fn₁ (by omega), retry_no_retries fn₂ (by omega)]
        exact ⟨rfl, rfl⟩
    | succ t ih =>
        intro r hr delay backoff i
        by_cases hr0 : r ≤ 0
        · rw [retry_no_retries fn₁ hr0, retry_no_retries fn₂ hr0]
          exact ⟨rfl, rfl⟩
        · cases h1 : fn₁ i with
          | ok v =>
              have h2 : (fn₂ i).isOk = true := by rw [← hsh i, h1]; rfl
              cases h2e : fn₂ i with
              | ok w => rw [retry_ok h1, retry_ok h2e]; exact ⟨rfl, rfl⟩
              | error e => rw [h2e] at h2; simp [Except.isOk, Except.toBool] at h2
          | error e =>
              have h2 : (fn₂ i).isOk = false := by rw [← hsh i, h1]; rfl
              cases h2e : fn₂ i with
              | ok w => rw [h2e] at h2; simp [Except.isOk, Except.toBool] at h2
              | error e₂ =>
                  rw [retry_err_step h1 (by omega), retry_err_step h2e (by omega)]
                  have := ih (r - 1) (by omega) (delay * backoff) backoff (i + 1)
                  exact ⟨by rw [this.1], by rw [this.2]⟩
  exact key r.toNat r (Nat.le_refl _) delay backoff i

end TestHelpers

/-- The `helper.ts` executor is the OrangeHRM executor with `backoff = 1`:
both recurse identically and a backoff factor of `1` leaves the delay
constant. -/
theorem utils_retry_eq_testHelpers (fn : Nat → Except ε α) (r : Int)
    (delay i : Nat) :
    Utils.retry fn r delay i = TestHelpers.retry fn r delay 1 i := by
  have key : ∀ (t : Nat) (r : Int), r.toNat ≤ t → ∀ i,
      Utils.retry fn r delay i = TestHelpers.retry fn r delay 1 i := by
    intro t
    induction t with
    | zero =>
        intro r hr i
        cases h : fn i with
        | ok v => rw [Utils.retry_ok_const h, TestHelpers.retry_ok h]
        | error e =>
            rw [Utils.retry_err_stop_const h (by omega), TestHelpers.retry_err_stop h (by omega)]
    | succ t ih =>
        intro r hr i
        by_cases hr0 : r ≤ 0
        · cases h : fn i with
          | ok v => rw [Utils.retry_ok_const h, TestHelpers.retry_ok h]
          | error e => rw [Utils.retry_err_stop_const h hr0, TestHelpers.retry_err_stop h hr0]
        · cases h : fn i with
          | ok v => rw [Utils.retry_ok_const h, TestHelpers.retry_ok h]
          | error e =>
              rw [Utils.retry_err_step_const h (by omega), TestHelpers.retry_err_step h (by omega)]
              rw [Nat.mul_one, ih (r - 1) (by omega) (i + 1)]
  exact key r.toNat r (Nat.le_refl _) i

namespace TestHelpers

/-- The `retryWithErrorHandling` loop entered at iteration `i + 1` behaves
exactly like the recursive `retry` with `retries = r - i`, constant delay
(`backoff = 1`), starting at invocation `i` — whatever error was captured
before. -/
theorem wehLoop_eq_retry (fn : Nat → Except ε α) (delay : Nat) :
    ∀ (t : Nat) (r : Int) (i : Nat), (r - i).toNat ≤ t → (i : Int) ≤ r →
      ∀ last, retryWEHLoop fn r delay (i + 1) last =
        (retry fn (r - i) delay 1 i).someErr := by
  intro t
  induction t with
  | zero =>
      intro r i hle hir last
      have hri : r = i := by omega
      have hb : ((i + 1 : Nat) : Int) ≤ r + 1 := by omega
      have hb2 : ¬ ((i + 1 : Nat) : Int) ≤ r := by omega
      cases h : fn i with
      | ok v =>
          rw [wehLoop_ok hb (by simpa using h), retry_ok h]
          simp [RetryTrace.someErr, Except.mapError]
      | error e =>
          rw [wehLoop_last hb hb2 (by simpa using h)]
          rw [retry_err_stop h (by omega)]
          simp [RetryTrace.someErr, Except.mapError]
  | succ t ih =>
      intro r i hle hir last
      have hb : ((i + 1 : Nat) : Int) ≤ r + 1 := by omega
      cases h : fn i with
      | ok v =>
          rw [wehLoop_ok hb (by simpa using h), retry_ok h]
          simp [RetryTrace.someErr, Except.mapError]
      | error e =>
          by_cases h2 : ((i + 1 : Nat) : Int) ≤ r
          · rw [wehLoop_step h2 (by simpa using h)]
            have hstep := ih r (i + 1) (by omega) (by omega) (some e)
            rw [show (i : Nat) + 1 + 1 = (i + 1) + 1 by rfl] at hstep
            rw [hstep]
            rw [retry_err_step h (by omega)]
            have : r - ((i : Nat) + 1 : Nat) = r - i - 1 := by push_cast; ring
            rw [this, Nat.mul_one]
            simp [RetryTrace.someErr]
          · have hri : r = i := by omega
            rw [wehLoop_last hb h2 (by simpa using h)]
            rw [retry_err_stop h (by omega)]
            simp [RetryTrace.someErr, Except.mapError]

end TestHelpers

namespace TestHelpers

/-- Every run's delay list is an initial segment of the geometric sequence
`delay * backoff ^ j`. -/
theorem retry_delays_geometric (fn : Nat → Except ε α) (r : Int)
    (delay backoff i : Nat) :
    ∃ m, (retry fn r delay backoff i).delays =
      (List.range m).map (fun j => delay * backoff ^ j) := by
  have key : ∀ (t : Nat) (r : Int), r.toNat ≤ t → ∀ delay i,
      ∃ m, (retry fn r delay backoff i).delays =
        (List.range m).map (fun j => delay * backoff ^ j) := by
    intro t
    induction t with
    | zero =>
        intro r hr delay i
        rw [retry_no_retries fn (by omega)]
        exact ⟨0, rfl⟩
    | succ t ih =>
        intro r hr delay i
        by_cases hr0 : r ≤ 0
        · rw [retry_no_retries fn hr0]; exact ⟨0, rfl⟩
        · cases h : fn i with
          | ok v => rw [retry_ok h]; exact ⟨0, rfl⟩
          | error e =>
              rw [retry_err_step h (by omega)]
              obtain ⟨m, hm⟩ := ih (r - 1) (by omega) (delay * backoff) (i + 1)
              refine ⟨m + 1, ?_⟩
              simp only [hm, List.range_succ_eq_map, List.map_cons, List.map_map,
                pow_zero, mul_one, List.cons.injEq, true_and]
              apply List.map_congr_left
              intro j _
              simp only [Function.comp_apply, pow_succ]
              ring
  exact key r.toNat r (Nat.le_refl _) delay i

end TestHelpers

/-- C1: for every `maxAttempts = n ≥ 1` (a `retries` argument of `n - 1`),
an operation failing on every invocation is invoked exactly `n` times and
the caller observes the error thrown by the final, `n`-th, invocation —
in both the backoff executor and the constant-delay `helper.ts` executor. -/
theorem claim_C1_always_failing_invoked_n_times {ε α : Type} (n : Nat)
    (hn : 1 ≤ n) (errs : Nat → ε) (delay backoff : Nat) :
    (TestHelpers.retry (fun j => (Except.error (errs j) : Except ε α))
        ((n : Int) - 1) delay backoff 0).calls = n ∧
    (TestHelpers.retry (fun j => (Except.error (errs j) : Except ε α))
        ((n : Int) - 1) delay backoff 0).result = Except.error (errs (n - 1)) ∧
    (Utils.retry (fun j => (Except.error (errs j) : Except ε α))
        ((n : Int) - 1) delay 0).calls = n ∧
    (Utils.retry (fun j => (Except.error (errs j) : Except ε α))
        ((n : Int) - 1) delay 0).result = Except.error (errs (n - 1)) := by
  have hcast : ((n : Int) - 1) = ((n - 1 : Nat) : Int) := by omega
  have hfail : ∀ j, j ≤ n - 1 →
      ((fun j => (Except.error (errs j) : Except ε α)) (0 + j)).isOk = false :=
    fun j _ => rfl
  have h1 := TestHelpers.retry_fail_spec (n - 1)
      (fun j => (Except.error (errs j) : Except ε α)) delay backoff 0 hfail
  have h2 := TestHelpers.retry_fail_spec (n - 1)
      (fun j => (Except.error (errs j) : Except ε α)) delay 1 0 hfail
  rw [utils_retry_eq_testHelpers, hcast, h1, h2]
  refine ⟨by simp; omega, by simp, by simp; omega, by simp⟩

/-- C1 witness: `n = 3` with error values `errs j = j`. -/
theorem claim_C1_always_failing_invoked_n_times_witness :
    (TestHelpers.retry (fun j => (Except.error j : Except Nat Nat))
        ((3 : Int) - 1) 5 2 0).calls = 3 ∧
    (TestHelpers.retry (fun j => (Except.error j : Except Nat Nat))
        ((3 : Int) - 1) 5 2 0).result = Except.error 2 := by
  have h := @claim_C1_always_failing_invoked_n_times Nat Nat 3 (by norm_num)
    (fun j => j) 5 2
  exact ⟨h.1, h.2.1⟩

/-- C6: a `retries` value of `-1` (the spec's `maxAttempts = 0`) performs
exactly one invocation, waits no delay, and returns that invocation's
outcome unchanged — so a failing single invocation throws its own error.
Both executors. -/
theorem claim_C6_zero_attempts_single_invocation {ε α : Type}
    (fn : Nat → Except ε α) (delay backoff : Nat) :
    TestHelpers.retry fn (-1) delay backoff 0 =
      { result := fn 0, calls := 1, delays := [] } ∧
    Utils.retry fn (-1) delay 0 =
      { result := fn 0, calls := 1, delays := [] } := by
  constructor
  · exact TestHelpers.retry_no_retries fn (by omega) delay backoff 0
  · rw [utils_retry_eq_testHelpers]
    exact TestHelpers.retry_no_retries fn (by omega) delay 1 0

/-- C7: with `maxAttempts = n` (a `retries` argument of `n - 1`), an
operation failing on its first `k - 1` invocations and succeeding on
invocation `k ≤ n` is invoked exactly `k` times and its success value is
returned; `k = 1` gives one single invocation. Both executors. -/
theorem claim_C7_first_success_stops {ε α : Type} (fn : Nat → Except ε α)
    (n k : Nat) (v : α) (hk : 1 ≤ k) (hkn : k ≤ n)
    (hfail : ∀ j, j + 1 < k → (fn j).isOk = false)
    (hok : fn (k - 1) = Except.ok v) (delay backoff : Nat) :
    (TestHelpers.retry fn ((n : Int) - 1) delay backoff 0).calls = k ∧
    (TestHelpers.retry fn ((n : Int) - 1) delay backoff 0).result =
      Except.ok v ∧
    (Utils.retry fn ((n : Int) - 1) delay 0).calls = k ∧
    (Utils.retry fn ((n : Int) - 1) delay 0).result = Except.ok v := by
  have hfail' : ∀ j, j < k - 1 → (fn (0 + j)).isOk = false :=
    fun j hj => by simpa using hfail j (by omega)
  have hok' : (fn (0 + (k - 1))).isOk = true := by
    rw [Nat.zero_add, hok]; rfl
  have h1 := TestHelpers.retry_succ_spec (k - 1) fn ((n : Int) - 1)
    delay backoff 0 (by omega) hfail' hok'
  have h2 := TestHelpers.retry_succ_spec (k - 1) fn ((n : Int) - 1)
    delay 1 0 (by omega) hfail' hok'
  rw [utils_retry_eq_testHelpers, h1, h2]
  refine ⟨by simp; omega, ?_, by simp; omega, ?_⟩ <;>
    simp [Nat.zero_add, hok]

/-- C7 witness: `n = 3`, success on invocation `k = 2`. -/
theorem claim_C7_first_success_stops_witness :
    (TestHelpers.retry
        (fun j => if j = 0 then (Except.error 9 : Except Nat Nat)
          else Except.ok 7) ((3 : Int) - 1) 5 2 0).calls = 2 ∧
    (TestHelpers.retry
        (fun j => if j = 0 then (Except.error 9 : Except Nat Nat)
          else Except.ok 7) ((3 : Int) - 1) 5 2 0).result = Except.ok 7 := by
  have h := claim_C7_first_success_stops
    (fun j => if j = 0 then (Except.error 9 : Except Nat Nat) else Except.ok 7)
    3 2 7 (by norm_num) (by norm_num)
    (fun j hj => by have hj0 : j = 0 := by omega
                    subst hj0; rfl) (by rfl) 5 2
  exact ⟨h.1, h.2.1⟩

/-- C3: the delay waited between attempt `i` and attempt `i + 1` is
`initialDelay * backoffMultiplier ^ i`: every run's delay list is an
initial segment of that geometric sequence (so the first inter-attempt
delay is `initialDelay` and each subsequent delay is the previous delay
times the multiplier); the `helper.ts` executor is the multiplier-1
instance with constant delays.  Concretely, `maxAttempts 3` (`retries 2`),
`initialDelay 100`, `backoffMultiplier 2` around an operation failing twice
then succeeding waits 100 then 200 and makes 3 invocations. -/
theorem claim_C3_geometric_backoff_delays {ε α : Type} :
    (∀ (fn : Nat → Except ε α) (r : Int) (delay backoff : Nat), ∃ m,
        (TestHelpers.retry fn r delay backoff 0).delays =
          (List.range m).map (fun j => delay * backoff ^ j)) ∧
    (∀ (fn : Nat → Except ε α) (r : Int) (delay : Nat), ∃ m,
        (Utils.retry fn r delay 0).delays =
          (List.range m).map (fun _ => delay)) ∧
    TestHelpers.retry
        (fun j => if j < 2 then (Except.error 0 : Except Nat Nat)
          else Except.ok 7) 2 100 2 0 =
      { result := Except.ok 7, calls := 3, delays := [100, 200] } := by
  refine ⟨?_, ?_, ?_⟩
  · intro fn r delay backoff
    exact TestHelpers.retry_delays_geometric fn r delay backoff 0
  · intro fn r delay
    rw [utils_retry_eq_testHelpers]
    obtain ⟨m, hm⟩ := TestHelpers.retry_delays_geometric fn r delay 1 0
    exact ⟨m, by simpa using hm⟩
  · have h := TestHelpers.retry_succ_spec 2
      (fun j => if j < 2 then (Except.error 0 : Except Nat Nat)
        else Except.ok 7) 2 100 2 0 (by norm_num)
      (fun j hj => by have : j = 0 ∨ j = 1 := by omega
                      rcases this with h0 | h1
                      · subst h0; rfl
                      · subst h1; rfl)
      (by rfl)
    rw [h]; rfl

/-- C8: after exhausting its attempts the executor throws exactly the error
value produced by the final invocation — the result is literally `fn` at
the last index, unwrapped (and `retryWithErrorHandling` rethrows the same
captured value) — and the retry decision never inspects error values: two
operations succeeding/failing at the same positions yield runs with
identical invocation counts and delays, whatever their errors. -/
theorem claim_C8_error_passthrough_and_agnostic {ε α : Type} :
    (∀ (r : Nat) (fn : Nat → Except ε α) (delay backoff : Nat),
        (∀ j, j ≤ r → (fn j).isOk = false) →
        (TestHelpers.retry fn (r : Int) delay backoff 0).result = fn r) ∧
    (∀ (r : Nat) (fn : Nat → Except ε α) (delay : Nat),
        (∀ j, j ≤ r → (fn j).isOk = false) →
        (TestHelpers.retryWithErrorHandling fn (r : Int) delay).result =
          Except.mapError some (fn r)) ∧
    (∀ (fn₁ fn₂ : Nat → Except ε α),
        (∀ j, (fn₁ j).isOk = (fn₂ j).isOk) →
        ∀ (r : Int) (delay backoff : Nat),
          (TestHelpers.retry fn₁ r delay backoff 0).calls =
            (TestHelpers.retry fn₂ r delay backoff 0).calls ∧
          (TestHelpers.retry fn₁ r delay backoff 0).delays =
            (TestHelpers.retry fn₂ r delay backoff 0).delays) := by
  refine ⟨?_, ?_, ?_⟩
  · intro r fn delay backoff hfail
    have h := TestHelpers.retry_fail_spec r fn delay backoff 0
      (fun j hj => by simpa using hfail j hj)
    rw [h]; simp
  · intro r fn delay hfail
    have heq : TestHelpers.retryWithErrorHandling fn (r : Int) delay =
        (TestHelpers.retry fn ((r : Int) - (0 : Nat)) delay 1 0).someErr := by
      exact TestHelpers.wehLoop_eq_retry fn delay ((r : Int) - (0 : Nat)).toNat
        (r : Int) 0 (by simp) (by omega) none
    have h := TestHelpers.retry_fail_spec r fn delay 1 0
      (fun j hj => by simpa using hfail j hj)
    rw [heq]
    simp only [Nat.cast_zero, sub_zero, h]
    simp [RetryTrace.someErr]
  · intro fn₁ fn₂ hsh r delay backoff
    exact TestHelpers.retry_shape_eq fn₁ fn₂ hsh r delay backoff 0

/-- C8 witness: two always-failing operations with different error values;
the thrown error is the final invocation's own error, counts coincide. -/
theorem claim_C8_error_passthrough_and_agnostic_witness :
    (TestHelpers.retry (fun j => (Except.error j : Except Nat Nat))
        ((1 : Nat) : Int) 5 2 0).result = Except.error 1 ∧
    (TestHelpers.retryWithErrorHandling
        (fun j => (Except.error j : Except Nat Nat)) ((1 : Nat) : Int) 5).result =
      Except.error (some 1) ∧
    (TestHelpers.retry (fun j => (Except.error j : Except Nat Nat))
        3 5 2 0).calls =
      (TestHelpers.retry (fun j => (Except.error (j + 100) : Except Nat Nat))
        3 5 2 0).calls := by
  have h := @claim_C8_error_passthrough_and_agnostic Nat Nat
  refine ⟨h.1 1 _ 5 2 (fun j _ => rfl), ?_,
    (h.2.2 (fun j => (Except.error j : Except Nat Nat))
      (fun j => (Except.error (j + 100) : Except Nat Nat))
      (fun j => rfl) 3 5 2).1⟩
  have h2 := h.2.1 1 (fun j => (Except.error j : Except Nat Nat)) 5
    (fun j _ => rfl)
  simpa using h2

/-- C10: with equal delay settings (constant delay, i.e. `backoff = 1`) and
no error handler, the loop-based `retryWithErrorHandling` run coincides
with the recursive `retry` run for every `retries = r ≥ 0`: same trace up
to tagging the thrown error with `some` — hence the same number of
invocations, the same success value, and on exhaustion the same final
error. -/
theorem claim_C10_weh_equivalent_to_retry {ε α : Type}
    (fn : Nat → Except ε α) (r : Nat) (delay : Nat) :
    TestHelpers.retryWithErrorHandling fn (r : Int) delay =
      (TestHelpers.retry fn (r : Int) delay 1 0).someErr ∧
    (TestHelpers.retryWithErrorHandling fn (r : Int) delay).calls =
      (TestHelpers.retry fn (r : Int) delay 1 0).calls ∧
    (TestHelpers.retryWithErrorHandling fn (r : Int) delay).delays =
      (TestHelpers.retry fn (r : Int) delay 1 0).delays ∧
    (TestHelpers.retryWithErrorHandling fn (r : Int) delay).result =
      Except.mapError some (TestHelpers.retry fn (r : Int) delay 1 0).result := by
  have heq : TestHelpers.retryWithErrorHandling fn (r : Int) delay =
      (TestHelpers.retry fn ((r : Int) - (0 : Nat)) delay 1 0).someErr :=
    TestHelpers.wehLoop_eq_retry fn delay ((r : Int) - (0 : Nat)).toNat
      (r : Int) 0 (by simp) (by omega) none
  simp only [Nat.cast_zero, sub_zero] at heq
  exact ⟨heq, by rw [heq]; rfl, by rw [heq]; rfl, by rw [heq]; rfl⟩

/-- C5: with a stored state whose probe succeeds, both fixtures perform zero
interactive login steps, return the context reconstructed from the stored
state, and leave the stored file unchanged with no write-back. -/
theorem claim_C5_valid_state_skips_login {σ : Type} (env : EnvironmentConfig)
    (w : World σ) (s : σ) (hs : w.stored = some s) (hp : w.probeOk = true) :
    (authenticatedPage env w).outcome = Except.ok (some s) ∧
    noLogin (authenticatedPage env w).log ∧
    (authenticatedPage env w).file = some s ∧
    countSave (authenticatedPage env w).log = 0 ∧
    (authenticatedContext env w).outcome = Except.ok (some s) ∧
    noLogin (authenticatedContext env w).log ∧
    (authenticatedContext env w).file = some s ∧
    countSave (authenticatedContext env w).log = 0 := by
  obtain ⟨st, p, l, f⟩ := w
  simp only at hs hp
  subst hs hp
  exact ⟨rfl, ⟨rfl, rfl, rfl⟩, rfl, rfl, rfl, ⟨rfl, rfl, rfl⟩, rfl, rfl⟩

/-- C5 witness: stored state `0`, valid probe. -/
theorem claim_C5_valid_state_skips_login_witness :
    (authenticatedPage devConfig
      ({ stored := some 0, probeOk := true, loginOk := true, fresh := 1 } :
        World Nat)).outcome = Except.ok (some 0) ∧
    noLogin (authenticatedPage devConfig
      ({ stored := some 0, probeOk := true, loginOk := true, fresh := 1 } :
        World Nat)).log ∧
    countSave (authenticatedContext devConfig
      ({ stored := some 0, probeOk := true, loginOk := true, fresh := 1 } :
        World Nat)).log = 0 := by
  have h := claim_C5_valid_state_skips_login devConfig
    ({ stored := some 0, probeOk := true, loginOk := true, fresh := 1 } :
      World Nat) 0 rfl rfl
  exact ⟨h.1, h.2.1, h.2.2.2.2.2.2.2⟩

/-- C2 counterexample: stored state `0` present, probe fails, interactive
login succeeds with fresh snapshot `1`.  The page-returning variant
performs the one login but issues no storage-state write: the file still
holds the stale state `0`, refuting the claimed overwrite "for both …
variants". -/
theorem claim_C2_counterexample :
    oneLogin (authenticatedPage devConfig
      ({ stored := some 0, probeOk := false, loginOk := true, fresh := 1 } :
        World Nat)).log ∧
    countSave (authenticatedPage devConfig
      ({ stored := some 0, probeOk := false, loginOk := true, fresh := 1 } :
        World Nat)).log = 0 ∧
    (authenticatedPage devConfig
      ({ stored := some 0, probeOk := false, loginOk := true, fresh := 1 } :
        World Nat)).file = some 0 ∧
    ¬ (authenticatedPage devConfig
      ({ stored := some 0, probeOk := false, loginOk := true, fresh := 1 } :
        World Nat)).file = some 1 := by
  decide

/-- C2 amended: with a stored state whose probe fails and a succeeding
login, each variant performs exactly one interactive login; the
context-returning variant overwrites the stored file with the fresh state
(one write), while the page-returning variant leaves the stored file
unchanged and performs no write. -/
theorem claim_C2_amended_invalid_state_relogin {σ : Type}
    (env : EnvironmentConfig) (w : World σ) (s : σ) (hs : w.stored = some s)
    (hp : w.probeOk = false) (hl : w.loginOk = true) :
    oneLogin (authenticatedPage env w).log ∧
    (authenticatedPage env w).file = some s ∧
    countSave (authenticatedPage env w).log = 0 ∧
    oneLogin (authenticatedContext env w).log ∧
    (authenticatedContext env w).file = some w.fresh ∧
    countSave (authenticatedContext env w).log = 1 := by
  obtain ⟨st, p, l, f⟩ := w
  simp only at hs hp hl
  subst hs hp hl
  exact ⟨⟨rfl, rfl, rfl⟩, rfl, rfl, ⟨rfl, rfl, rfl⟩, rfl, rfl⟩

/-- C2 amended witness: stale state `0`, fresh snapshot `1`. -/
theorem claim_C2_amended_invalid_state_relogin_witness :
    oneLogin (authenticatedContext devConfig
      ({ stored := some 0, probeOk := false, loginOk := true, fresh := 1 } :
        World Nat)).log ∧
    (authenticatedContext devConfig
      ({ stored := some 0, probeOk := false, loginOk := true, fresh := 1 } :
        World Nat)).file = some 1 := by
  have h := claim_C2_amended_invalid_state_relogin devConfig
    ({ stored := some 0, probeOk := false, loginOk := true, fresh := 1 } :
      World Nat) 0 rfl rfl rfl
  exact ⟨h.2.2.2.1, h.2.2.2.2.1⟩

/-- C4 counterexample: no stored state, login succeeds with fresh snapshot
`1`.  The page-returning variant performs the one login but creates no
session file (no write, file still absent), refuting "creates the stored
session file … for both … variants". -/
theorem claim_C4_counterexample :
    oneLogin (authenticatedPage devConfig
      ({ stored := none, probeOk := true, loginOk := true, fresh := 1 } :
        World Nat)).log ∧
    countSave (authenticatedPage devConfig
      ({ stored := none, probeOk := true, loginOk := true, fresh := 1 } :
        World Nat)).log = 0 ∧
    (authenticatedPage devConfig
      ({ stored := none, probeOk := true, loginOk := true, fresh := 1 } :
        World Nat)).file = none := by
  decide

/-- C4 amended: with no stored state and a succeeding login, each variant
performs exactly one interactive login; the context-returning variant
creates the stored file with the fresh state (leaving a non-empty file),
while the page-returning variant leaves no file behind. -/
theorem claim_C4_amended_no_state_login {σ : Type} (env : EnvironmentConfig)
    (w : World σ) (hs : w.stored = none) (hl : w.loginOk = true) :
    oneLogin (authenticatedPage env w).log ∧
    (authenticatedPage env w).file = none ∧
    countSave (authenticatedPage env w).log = 0 ∧
    oneLogin (authenticatedContext env w).log ∧
    (authenticatedContext env w).file = some w.fresh ∧
    countSave (authenticatedContext env w).log = 1 := by
  obtain ⟨st, p, l, f⟩ := w
  simp only at hs hl
  subst hs hl
  cases p
  · exact ⟨⟨rfl, rfl, rfl⟩, rfl, rfl, ⟨rfl, rfl, rfl⟩, rfl, rfl⟩
  · exact ⟨⟨rfl, rfl, rfl⟩, rfl, rfl, ⟨rfl, rfl, rfl⟩, rfl, rfl⟩

/-- C4 amended witness: the spec's concrete scenario — absent session file,
`dev` credentials ("Admin" / "admin123"); the context variant leaves a
non-empty session file. -/
theorem claim_C4_amended_no_state_login_witness :
    oneLogin (authenticatedContext devConfig
      ({ stored := none, probeOk := true, loginOk := true, fresh := 1 } :
        World Nat)).log ∧
    (authenticatedContext devConfig
      ({ stored := none, probeOk := true, loginOk := true, fresh := 1 } :
        World Nat)).file = some 1 := by
  have h := claim_C4_amended_no_state_login devConfig
    ({ stored := none, probeOk := true, loginOk := true, fresh := 1 } :
      World Nat) rfl rfl
  exact ⟨h.2.2.2.1, h.2.2.2.2.1⟩

/-- C9: when the interactive login fails (the post-submit marker wait
rejects), the fixtures and `createAuthState` surface exactly that error —
nothing catches or transforms it — the stored file is untouched, and no
retry happens at this layer: every call performs at most one submit
click. -/
theorem claim_C9_login_failure_propagates {σ : Type}
    (env : EnvironmentConfig) (w : World σ) (hl : w.loginOk = false) :
    ((w.stored = none ∨ w.probeOk = false) →
      (authenticatedPage env w).outcome =
        Except.error FixtureError.timeoutError ∧
      oneLogin (authenticatedPage env w).log) ∧
    (createAuthState env w).outcome = Except.error FixtureError.timeoutError ∧
    oneLogin (createAuthState env w).log ∧
    (createAuthState env w).file = w.stored ∧
    (∀ w' : World σ,
      countClick submitSelector (authenticatedPage env w').log ≤ 1 ∧
      countClick submitSelector (authenticatedContext env w').log ≤ 1 ∧
      countClick submitSelector (createAuthState env w').log ≤ 1) := by
  obtain ⟨st, p, l, f⟩ := w
  simp only at hl
  subst hl
  refine ⟨?_, ?_, ⟨rfl, rfl, rfl⟩, rfl, ?_⟩
  · intro h
    cases st with
    | none => exact ⟨rfl, rfl, rfl, rfl⟩
    | some s =>
        cases p
        · exact ⟨rfl, rfl, rfl, rfl⟩
        · simp only at h
          rcases h with h | h <;> simp at h
  · cases st <;> rfl
  · intro w'
    obtain ⟨st', p', l', f'⟩ := w'
    cases st' <;> cases p' <;> cases l' <;>
      exact ⟨by first | exact Nat.le_refl 1 | exact Nat.zero_le 1,
             by first | exact Nat.le_refl 1 | exact Nat.zero_le 1,
             by first | exact Nat.le_refl 1 | exact Nat.zero_le 1⟩

/-- C9 witness: no stored state, failing login. -/
theorem claim_C9_login_failure_propagates_witness :
    (authenticatedPage devConfig
      ({ stored := none, probeOk := true, loginOk := false, fresh := 1 } :
        World Nat)).outcome = Except.error FixtureError.timeoutError ∧
    (createAuthState devConfig
      ({ stored := none, probeOk := true, loginOk := false, fresh := 1 } :
        World Nat)).outcome = Except.error FixtureError.timeoutError := by
  have h := claim_C9_login_failure_propagates devConfig
    ({ stored := none, probeOk := true, loginOk := false, fresh := 1 } :
      World Nat) rfl
  exact ⟨(h.1 (Or.inl rfl)).1, h.2.1⟩
